import Mathlib

/-!
Verification of the sports-score ticker (`code.py`).

The program polls the ESPN scoreboard feeds of four leagues, normalizes the
events into game records, and rotates a two-panel matrix display through the
resulting list on two independent tick-based intervals.  This file gives a
shallow embedding of the scheduling loop, the fetch/parse pipeline, the date
conversion helper and the crash-recovery handlers, and proves the stated
properties about them.

External collaborators (the `adafruit_ticks` tick arithmetic and the
`adafruit_datetime` calendar arithmetic) are modelled from those libraries'
documented semantics, since the program's behaviour depends on them; the
rest of the definitions are translated directly from `code.py`.
-/

namespace Espy

/-! ## Configuration constants (code.py lines 35-47, 392-394) -/

/-- `timezone_info = [-5, "EST"]`: the configured UTC offset and zone name. -/
def timezone_info : Int × String := (-5, "EST")

/-- `sport_leagues = ["nfl", "mlb", "nhl", "nba"]`. -/
def sport_leagues : List String := ["nfl", "mlb", "nhl", "nba"]

/-- `fetch_interval = 300` seconds. -/
def fetch_interval : Nat := 300

/-- `display_interval = 5` seconds. -/
def display_interval : Nat := 5

/-- `fetch_interval_ms = fetch_interval * 1000`. -/
def fetch_interval_ms : Nat := fetch_interval * 1000

/-- `display_interval_ms = display_interval * 1000`. -/
def display_interval_ms : Nat := display_interval * 1000

/-! ## Tick arithmetic

Modelled from the `adafruit_ticks` library used by the source
(`from adafruit_ticks import ticks_ms, ticks_add, ticks_diff`):
the tick counter is fixed-width, `_TICKS_PERIOD = 1 << 29`, and
`ticks_diff` returns the signed wraparound difference in
`[-_TICKS_HALFPERIOD, _TICKS_HALFPERIOD)`. -/

def TICKS_PERIOD : Nat := 536870912

def TICKS_HALFPERIOD : Nat := 268435456

/-- `ticks_add(ticks, delta) = (ticks + delta) % _TICKS_PERIOD`. -/
def ticks_add (ticks delta : Nat) : Nat := (ticks + delta) % TICKS_PERIOD

/-- `ticks_diff(t1, t2)`: signed modular difference of two tick stamps,
`(((t1 - t2) mod P) + P/2) mod P - P/2` with Python (floor) semantics of `%`. -/
def ticks_diff (t1 t2 : Nat) : Int :=
  (((t1 : Int) - (t2 : Int)) % (TICKS_PERIOD : Int) + (TICKS_HALFPERIOD : Int))
      % (TICKS_PERIOD : Int) - (TICKS_HALFPERIOD : Int)

/-- The elapsed test used (twice) by the main loop, lines 410 and 423:
`ticks_diff(current_time, clock) >= interval_ms`. -/
def elapsed (deadline now interval : Nat) : Bool :=
  decide ((interval : Int) ≤ ticks_diff now deadline)

/-- The wraparound-safe signed difference of two tick stamps, stated the way
the specification describes it: reduce `now - deadline` into the window
`[-P/2, P/2)` of the fixed-width counter.  This is the comparison value the
spec says the elapsed check must use. -/
def wrapDiff (now deadline : Nat) : Int :=
  let d : Nat := (now + TICKS_PERIOD - deadline % TICKS_PERIOD) % TICKS_PERIOD
  if d < TICKS_HALFPERIOD then (d : Int) else (d : Int) - (TICKS_PERIOD : Int)

/-! ## The Game record (the dictionary built by `parse_game`, lines 229-240) -/

structure Game where
  league : String
  league_idx : Nat
  home_team : String
  away_team : String
  home_score : String
  away_score : String
  status : String
  is_final : Bool
  is_live : Bool
  is_scheduled : Bool
deriving Repr, DecidableEq

/-! ## Rotation (main loop lines 424-434)

`rotate` packages the selection-and-advance performed under
`if games:` — return the game at the current index and step the index by
one modulo the list length.  On an empty list nothing is selected and the
index is untouched.  A `none` first component on a non-empty list models
the `IndexError` the source would raise on an out-of-range index. -/

def rotate (games : List Game) (idx : Nat) : Option Game × Nat :=
  if games.isEmpty then (none, idx)
  else (games.get? idx, (idx + 1) % games.length)

/-- Index after `k` consecutive rotation calls (no intervening refresh). -/
def rotate_iter (games : List Game) (idx : Nat) : Nat → Nat
  | 0 => idx
  | k + 1 => (rotate games (rotate_iter games idx k)).2

/-! ## One iteration of the main loop (lines 405-452) -/

/-- The loop's mutable state: the installed game list, the two interval
deadlines, and the rotation index. -/
structure LoopState where
  games : List Game
  fetch_clock : Nat
  display_clock : Nat
  game_index : Nat
deriving Repr, DecidableEq

/-- Observable actions of one loop iteration, in order of occurrence. -/
inductive Action where
  | log : Action
  | gcCollect : Action
  | sleep_ms : Nat → Action
  | showNoGames : Action
  | showGame : Game → Action
  | restart : Action
deriving Repr, DecidableEq

/-- The two fault classes distinguished by the main loop's handlers:
`MemoryError` versus any other `Exception`. -/
inductive Fault where
  | memoryError : Fault
  | generic : Fault
deriving Repr, DecidableEq

/-- The `except` handlers at lines 441-452:
`MemoryError` → print, `gc.collect()`, `time.sleep(5)`, reset;
any other exception → print, `time.sleep(10)`, `gc.collect()`,
`time.sleep(5)`, reset. -/
def handle_fault : Fault → List Action
  | .memoryError => [.log, .gcCollect, .sleep_ms 5000, .restart]
  | .generic => [.log, .sleep_ms 10000, .gcCollect, .sleep_ms 5000, .restart]

/-- Per-step inputs from the environment: the tick clock reading and the
list that `fetch_all_games()` would return if invoked this step; `fault`
injects an exception escaping the loop body (e.g. a `MemoryError` raised
during a pipeline stage). -/
structure StepInput where
  now : Nat
  fetch_result : List Game
  fault : Option Fault

/-- Lines 423-439 of the loop body: show the next game when the display
interval has elapsed, then the short anti-busy-spin sleep.  `trF` is the
trace already emitted by the refresh phase of the same iteration; a `none`
selection on a non-empty list is the source's `IndexError`, a generic
fault. -/
def display_phase (trF : List Action) (sF : LoopState) (now : Nat) :
    Except Fault (List Action × LoopState) :=
  if elapsed sF.display_clock now display_interval_ms then
    if sF.games.isEmpty then
      Except.ok (trF ++ [Action.sleep_ms 100],
        { sF with display_clock := ticks_add sF.display_clock display_interval_ms })
    else
      match rotate sF.games sF.game_index with
      | (some g, idx2) =>
        Except.ok (trF ++ [Action.log, Action.gcCollect, Action.showGame g, Action.sleep_ms 100],
          { sF with game_index := idx2,
                    display_clock := ticks_add sF.display_clock display_interval_ms })
      | (none, _) => Except.error Fault.generic
  else
    Except.ok (trF ++ [Action.sleep_ms 100], sF)

/-- The `try` body of one main-loop iteration (lines 407-439), for a step in
which no exception is raised by the environment.  Returns the emitted
actions and the successor state, or the fault class of an escaping
exception.  Lines 410-420 refresh the data when the fetch interval has
elapsed; an empty refresh shows the no-games screen, sleeps, and
`continue`s past the display phase. -/
def run_body (s : LoopState) (now : Nat) (fetch_result : List Game) :
    Except Fault (List Action × LoopState) :=
  if elapsed s.fetch_clock now fetch_interval_ms then
    if fetch_result.isEmpty then
      Except.ok ([Action.log, Action.gcCollect, Action.showNoGames, Action.sleep_ms 5000],
        { s with games := fetch_result,
                 fetch_clock := ticks_add s.fetch_clock fetch_interval_ms,
                 game_index := 0 })
    else
      display_phase [Action.log, Action.gcCollect]
        { s with games := fetch_result,
                 fetch_clock := ticks_add s.fetch_clock fetch_interval_ms,
                 game_index := 0 } now
  else
    display_phase [] s now

/-- One guarded iteration of `while True:` — the `try` body wrapped in the
two `except` handlers.  A `none` state means the step ended in
`microcontroller.reset()`. -/
def step (s : LoopState) (inp : StepInput) : List Action × Option LoopState :=
  match inp.fault with
  | some f => (handle_fault f, none)
  | none =>
    match run_body s inp.now inp.fetch_result with
    | .ok (tr, s2) => (tr, some s2)
    | .error f => (handle_fault f, none)

/-! ## Python `int()` on string slices

`convert_date_format` extracts fixed slices of the timestamp and feeds them
to `int(...)`.  Slicing never fails in Python (it just yields fewer
characters); `int` strips surrounding whitespace, accepts one optional
sign, and then requires a non-empty run of ASCII decimal digits — anything
else raises, which the caller turns into `"TBD"`. -/

def py_slice (cs : List Char) (a b : Nat) : List Char := (cs.drop a).take (b - a)

def is_space_char (c : Char) : Bool :=
  c = ' ' || c = '\t' || c = '\n' || c = '\r' || c = '\x0b' || c = '\x0c'

def is_digit_char (c : Char) : Bool := '0' ≤ c && c ≤ '9'

def digit_val (c : Char) : Nat := c.toNat - 48

def py_strip (cs : List Char) : List Char :=
  ((cs.dropWhile is_space_char).reverse.dropWhile is_space_char).reverse

def py_digits_val (cs : List Char) : Nat :=
  cs.foldl (fun acc c => 10 * acc + digit_val c) 0

/-- Model of Python `int(s)` on the (ASCII) strings the program slices out:
`some` of the parsed value, or `none` when `int` would raise `ValueError`. -/
def pyInt (cs : List Char) : Option Int :=
  let t := py_strip cs
  let sd : Int × List Char :=
    match t with
    | c :: rest => if c = '-' then (-1, rest) else if c = '+' then (1, rest) else (1, t)
    | [] => (1, [])
  if sd.2 ≠ [] ∧ sd.2.all is_digit_char then some (sd.1 * (py_digits_val sd.2 : Int))
  else none

/-! ## Calendar arithmetic

Modelled from the `adafruit_datetime` library (a port of CPython's
`datetime`): field validation in the constructor, proleptic-Gregorian
ordinal conversion, and `datetime.__add__(timedelta)`, which raises
`OverflowError` when the resulting ordinal leaves `1 ..= _MAXORDINAL`. -/

def is_leap (year : Nat) : Bool := year % 4 = 0 && (year % 100 ≠ 0 || year % 400 = 0)

def DAYS_IN_MONTH : List Nat := [0, 31, 28, 31, 30, 31, 30, 31, 31, 30, 31, 30, 31]

def DAYS_BEFORE_MONTH : List Nat := [0, 0, 31, 59, 90, 120, 151, 181, 212, 243, 273, 304, 334]

def days_in_month (year month : Nat) : Nat :=
  if month = 2 && is_leap year then 29 else DAYS_IN_MONTH.getD month 0

def days_before_month (year month : Nat) : Nat :=
  DAYS_BEFORE_MONTH.getD month 0 + (if 2 < month && is_leap year then 1 else 0)

def days_before_year (year : Nat) : Nat :=
  let y := year - 1
  y * 365 + y / 4 - y / 100 + y / 400

/-- `_ymd2ord`: proleptic Gregorian ordinal, with 0001-01-01 as day 1. -/
def ymd2ord (year month day : Nat) : Nat :=
  days_before_year year + days_before_month year month + day

/-- `date.max.toordinal()`, i.e. `ymd2ord 9999 12 31`. -/
def MAXORDINAL : Nat := 3652059

/-- `_ord2ymd`: date from a proleptic Gregorian ordinal (CPython algorithm). -/
def ord2ymd (n0 : Nat) : Nat × Nat × Nat :=
  let n := n0 - 1
  let n400 := n / 146097
  let n := n % 146097
  let n100 := n / 36524
  let n := n % 36524
  let n4 := n / 1461
  let n := n % 1461
  let n1 := n / 365
  let n := n % 365
  let year := n400 * 400 + 1 + n100 * 100 + n4 * 4 + n1
  if n1 = 4 || n100 = 4 then (year - 1, 12, 31)
  else
    let leap := n1 = 3 && (n4 ≠ 24 || n100 = 3)
    let month := (n + 50) >>> 5
    let preceding := DAYS_BEFORE_MONTH.getD month 0 + (if 2 < month && leap then 1 else 0)
    let (month, preceding) :=
      if n < preceding then
        (month - 1,
         preceding - (DAYS_IN_MONTH.getD (month - 1) 0 +
           (if month - 1 = 2 && leap then 1 else 0)))
      else (month, preceding)
    (year, month, n - preceding + 1)

/-- The `datetime` constructor's range checks (`_check_date_fields` /
`_check_time_fields`): `MINYEAR = 1`, `MAXYEAR = 9999`. -/
def datetime_fields_ok (y mo d h mi : Int) : Bool :=
  1 ≤ y && y ≤ 9999 && 1 ≤ mo && mo ≤ 12 && 1 ≤ d &&
    d ≤ (days_in_month y.toNat mo.toNat : Int) && 0 ≤ h && h < 24 && 0 ≤ mi && mi < 60

/-- `datetime(y, mo, d, h, mi) + timedelta(hours=tz)`: total-minutes
arithmetic with floor division, `none` when the sum's ordinal leaves
`1 ..= _MAXORDINAL` (the library raises `OverflowError` there). -/
def dt_add_hours (y mo d h mi : Nat) (tz : Int) : Option (Nat × Nat × Nat × Nat × Nat) :=
  let total : Int := (ymd2ord y mo d : Int) * 1440 + (h : Int) * 60 + (mi : Int) + tz * 60
  let days : Int := total / 1440
  let rem : Nat := (total % 1440).toNat
  if days < 1 ∨ (MAXORDINAL : Int) < days then none
  else
    let ymd := ord2ymd days.toNat
    some (ymd.1, ymd.2.1, ymd.2.2, rem / 60, rem % 60)

/-! ## `convert_date_format` (code.py lines 119-144) -/

/-- Zero-padded minute, Python `f"{minute:02d}"` for `0 ≤ minute < 100`. -/
def pad2_str (n : Nat) : String := if n < 10 then "0" ++ toString n else toString n

/-- The f-string at line 141, after the 12-hour computation of lines
136-139 (`am_pm` and the two-step `hour_12` locals inlined):
`f"{month}/{day} {hour_12}:{minute:02d}{am_pm}"`. -/
def format_time (month day hour minute : Nat) : String :=
  toString month ++ "/" ++ toString day ++ " " ++
    toString (if (if hour ≤ 12 then hour else hour - 12) = 0 then 12
              else if hour ≤ 12 then hour else hour - 12) ++ ":" ++
    pad2_str minute ++ (if hour < 12 then "AM" else "PM")

/-- The five `int(date_str[a:b])` field extractions of lines 122-126;
`none` when any of them raises. -/
def parse_ts_fields (cs : List Char) : Option (Int × Int × Int × Int × Int) :=
  match pyInt (py_slice cs 0 4), pyInt (py_slice cs 5 7), pyInt (py_slice cs 8 10),
      pyInt (py_slice cs 11 13), pyInt (py_slice cs 14 16) with
  | some y, some mo, some d, some h, some mi => some (y, mo, d, h, mi)
  | _, _, _, _, _ => none

/-- `convert_date_format(date_str, tz_info)`: parse the UTC timestamp,
shift it by `tz_info[0]` hours, and render `M/D H:MMAM|PM`; any exception
(parse failure, constructor validation, calendar overflow) yields `"TBD"`. -/
def convert_date_format (date_str : String) (tz_info : Int × String) : String :=
  match parse_ts_fields date_str.data with
  | none => "TBD"
  | some (y, mo, d, h, mi) =>
    if datetime_fields_ok y mo d h mi then
      match dt_add_hours y.toNat mo.toNat d.toNat h.toNat mi.toNat tz_info.1 with
      | some (_, m2, d2, h2, mi2) => format_time m2 d2 h2 mi2
      | none => "TBD"
    else "TBD"

/-- A timestamp string is well formed when the five sliced fields parse and
satisfy the calendar/time range checks. -/
def well_formed_ts (s : String) : Bool :=
  match parse_ts_fields s.data with
  | none => false
  | some (y, mo, d, h, mi) => datetime_fields_ok y mo d h mi

/-! ## Raw upstream event records

The JSON shape `parse_game` reads (spec §6): `Option` marks keys whose
absence makes the corresponding subscript raise `KeyError`; keys read with
`.get(key, default)` are also `Option`, with the default applied by the
accessor.  Upstream scores are strings (`str(...)` at lines 234-235 is the
identity on them). -/

structure RawTeam where
  abbreviation : Option String
deriving Repr, DecidableEq

structure RawCompetitor where
  team : Option RawTeam
  score : Option String
deriving Repr, DecidableEq

structure RawCompetition where
  competitors : Option (List RawCompetitor)
deriving Repr, DecidableEq

structure RawStatusType where
  name : Option String
  shortDetail : Option String
deriving Repr, DecidableEq

structure RawStatus where
  type : Option RawStatusType
deriving Repr, DecidableEq

structure RawEvent where
  competitions : Option (List RawCompetition)
  status : Option RawStatus
  date : Option String
deriving Repr, DecidableEq

/-- Python `str.upper()` on the (ASCII) league identifiers. -/
def py_upper (s : String) : String :=
  ⟨s.data.map (fun c => if 'a' ≤ c && c ≤ 'z' then Char.ofNat (c.toNat - 32) else c)⟩

/-! ## `parse_game` (code.py lines 192-243)

Every exception raised inside the function body is caught by its own
`try`/`except` and turned into `None`, as is the explicit
`len(competitors) != 2` rejection; both are `none` here. -/

def parse_game (event : RawEvent) (league_idx : Nat) : Option Game :=
  match event.competitions with
  | none => none
  | some comps =>
  match comps[0]? with
  | none => none
  | some competition =>
  match competition.competitors with
  | none => none
  | some competitors =>
  match competitors with
  | [c0, c1] =>
    match c0.team with
    | none => none
    | some t0 =>
    match t0.abbreviation with
    | none => none
    | some home_team =>
    match c1.team with
    | none => none
    | some t1 =>
    match t1.abbreviation with
    | none => none
    | some away_team =>
    match event.status with
    | none => none
    | some st =>
    match st.type with
    | none => none
    | some status_type =>
    match sport_leagues[league_idx]? with
    | none => none
    | some league_name =>
      let home_score := c0.score.getD "0"
      let away_score := c1.score.getD "0"
      let status_name := status_type.name.getD "STATUS_SCHEDULED"
      let status_detail := status_type.shortDetail.getD ""
      let game_date := event.date.getD ""
      let display_status :=
        if status_name == "STATUS_FINAL" then "FINAL"
        else if status_name == "STATUS_IN_PROGRESS" then status_detail
        else if status_name == "STATUS_SCHEDULED" then convert_date_format game_date timezone_info
        else if status_name == "STATUS_POSTPONED" then "POSTPONED"
        else if status_name == "STATUS_CANCELED" then "CANCELED"
        else if status_detail ≠ "" then status_detail
        else "SCHEDULED"
      some { league := py_upper league_name,
             league_idx := league_idx,
             home_team := home_team,
             away_team := away_team,
             home_score := home_score,
             away_score := away_score,
             status := display_status,
             is_final := status_name == "STATUS_FINAL",
             is_live := status_name == "STATUS_IN_PROGRESS",
             is_scheduled := status_name == "STATUS_SCHEDULED" }
  | _ => none

/-! ## `fetch_all_games` (code.py lines 155-189)

One step of the `for league_idx, url in enumerate(SPORT_URLS)` loop is
driven by the outcome of `requests.get(url)` / `resp.json()`: either the
request or JSON decoding raised (the league-level `except` logs and
`continue`s) or it produced the `events` list.  Per-event parse errors are
skipped by the inner `try`/`except`, and `parse_game` returning `None` is
dropped by `if game:`. -/

inductive LeagueResp where
  | fetchErr : LeagueResp
  | ok : List RawEvent → LeagueResp
deriving Repr, DecidableEq

/-- Games contributed by one league's iteration of the fetch loop. -/
def fetch_league (league_idx : Nat) : LeagueResp → List Game
  | .fetchErr => []
  | .ok events => events.filterMap (fun e => parse_game e league_idx)

/-- The fetch loop from league index `i` on, appending into `all_games`. -/
def fetch_all_games_from (i : Nat) : List LeagueResp → List Game
  | [] => []
  | r :: rs => fetch_league i r ++ fetch_all_games_from (i + 1) rs

/-- `fetch_all_games()`, as a function of the per-league outcomes. -/
def fetch_all_games (resps : List LeagueResp) : List Game :=
  fetch_all_games_from 0 resps

/-- The competitors list of an event, when every access on the way there
succeeds: `event["competitions"][0]["competitors"]`. -/
def event_competitors (e : RawEvent) : Option (List RawCompetitor) :=
  (e.competitions.bind (fun l => l.get? 0)).bind (fun c => c.competitors)

/-- The event with every competitor's `score` key removed. -/
def erase_scores (e : RawEvent) : RawEvent :=
  { e with competitions := e.competitions.map (fun comps =>
      comps.map (fun comp =>
        { comp with competitors := comp.competitors.map (fun cs =>
            cs.map (fun c => { c with score := none })) })) }

/-! ## Canonical timestamps and the spec's formatting rule -/

/-- ASCII digit character for `d % 10`. -/
def digit_char (d : Nat) : Char := Char.ofNat (48 + d % 10)

/-- Two zero-padded decimal digits. -/
def pad2_chars (n : Nat) : List Char := [digit_char (n / 10), digit_char n]

/-- Four zero-padded decimal digits. -/
def pad4_chars (n : Nat) : List Char :=
  [digit_char (n / 1000), digit_char (n / 100), digit_char (n / 10), digit_char n]

/-- The canonical well-formed upstream timestamp `YYYY-MM-DDTHH:MM`. -/
def render_timestamp (y mo d h mi : Nat) : String :=
  ⟨pad4_chars y ++ '-' :: pad2_chars mo ++ '-' :: pad2_chars d ++
    'T' :: pad2_chars h ++ ':' :: pad2_chars mi⟩

/-- The display format exactly as the specification words it: `M/D H:MMAM|PM`,
minute zero-padded, 12-hour clock with hour 0 displayed as 12. -/
def render_clock_spec (month day hour minute : Nat) : String :=
  toString month ++ "/" ++ toString day ++ " " ++
    toString (if hour % 12 = 0 then 12 else hour % 12) ++ ":" ++
    (if minute < 10 then "0" else "") ++ toString minute ++
    (if hour < 12 then "AM" else "PM")

/-! ## Sample concrete data used to instantiate the theorems -/

def sample_game : Game :=
  { league := "NFL", league_idx := 0, home_team := "NE", away_team := "MIA",
    home_score := "21", away_score := "14", status := "FINAL",
    is_final := true, is_live := false, is_scheduled := false }

def sample_game2 : Game :=
  { league := "MLB", league_idx := 1, home_team := "BOS", away_team := "NYY",
    home_score := "3", away_score := "2", status := "FINAL",
    is_final := true, is_live := false, is_scheduled := false }

/-- A fully populated upstream event that the normalizer accepts. -/
def sample_home : RawCompetitor :=
  { team := some { abbreviation := some "NE" }, score := some "21" }

def sample_away : RawCompetitor :=
  { team := some { abbreviation := some "MIA" }, score := some "14" }

def sample_event : RawEvent :=
  { competitions := some [{ competitors := some [sample_home, sample_away] }],
    status := some { type := some { name := some "STATUS_FINAL", shortDetail := some "Final" } },
    date := some "2024-01-15T00:30" }

/-- A malformed upstream event (no `competitions` key): rejected. -/
def bad_event : RawEvent := { competitions := none, status := none, date := none }

/-! # Theorems -/

/-! ## Wraparound-safe elapsed test (claim C3) -/

lemma ticks_diff_eq_wrapDiff (t1 t2 : Nat)
    (h1 : t1 < TICKS_PERIOD) (h2 : t2 < TICKS_PERIOD) :
    ticks_diff t1 t2 = wrapDiff t1 t2 := by
  simp only [ticks_diff, wrapDiff, TICKS_PERIOD, TICKS_HALFPERIOD] at *
  split <;> omega

/-- Claim C3: for all tick pairs `(deadline, now)` of the fixed-width
monotonic counter, including pairs that straddle overflow, the scheduler's
elapsed check returns true exactly when the wraparound-safe difference
`now - deadline` is at least the interval — for the fetch interval and for
the display interval. -/
theorem elapsed_iff_wrap_ge_interval (deadline now : Nat)
    (hd : deadline < TICKS_PERIOD) (hn : now < TICKS_PERIOD) :
    (elapsed deadline now fetch_interval_ms = true ↔
      (fetch_interval_ms : Int) ≤ wrapDiff now deadline)
    ∧ (elapsed deadline now display_interval_ms = true ↔
      (display_interval_ms : Int) ≤ wrapDiff now deadline) := by
  unfold elapsed
  rw [ticks_diff_eq_wrapDiff now deadline hn hd]
  constructor <;> simp

theorem elapsed_iff_wrap_ge_interval_witness :
    (elapsed 536870800 300 fetch_interval_ms = true ↔
      (fetch_interval_ms : Int) ≤ wrapDiff 300 536870800)
    ∧ (elapsed 536870800 300 display_interval_ms = true ↔
      (display_interval_ms : Int) ≤ wrapDiff 300 536870800) :=
  elapsed_iff_wrap_ge_interval 536870800 300 (by decide) (by decide)

/-! ## Helper lemmas about one scheduler step -/

lemma step_ok_iff (s : LoopState) (inp : StepInput) (tr : List Action) (s2 : LoopState)
    (hf : inp.fault = none) :
    step s inp = (tr, some s2) ↔
      run_body s inp.now inp.fetch_result = Except.ok (tr, s2) := by
  cases hr : run_body s inp.now inp.fetch_result with
  | ok p =>
    obtain ⟨a, b⟩ := p
    simp [step, hf, hr]
  | error f =>
    simp [step, hf, hr, handle_fault]

lemma rotate_nonempty (games : List Game) (idx : Nat) (hne : games ≠ []) :
    rotate games idx = (games.get? idx, (idx + 1) % games.length) := by
  simp [rotate, List.isEmpty_iff, hne]

/-- Exhaustive description of a successful display phase. -/
lemma display_phase_cases (trF : List Action) (sF : LoopState) (now : Nat)
    (tr : List Action) (s2 : LoopState)
    (h : display_phase trF sF now = Except.ok (tr, s2)) :
    (elapsed sF.display_clock now display_interval_ms = false ∧
      tr = trF ++ [Action.sleep_ms 100] ∧ s2 = sF)
    ∨ (elapsed sF.display_clock now display_interval_ms = true ∧ sF.games = [] ∧
      tr = trF ++ [Action.sleep_ms 100] ∧
      s2 = { sF with display_clock := ticks_add sF.display_clock display_interval_ms })
    ∨ (∃ g, elapsed sF.display_clock now display_interval_ms = true ∧
      sF.games.get? sF.game_index = some g ∧
      tr = trF ++ [Action.log, Action.gcCollect, Action.showGame g, Action.sleep_ms 100] ∧
      s2 = { sF with game_index := (sF.game_index + 1) % sF.games.length,
                     display_clock := ticks_add sF.display_clock display_interval_ms }) := by
  unfold display_phase at h
  by_cases hdd : elapsed sF.display_clock now display_interval_ms = true
  · rw [if_pos hdd] at h
    by_cases hge : sF.games.isEmpty = true
    · rw [if_pos hge] at h
      rw [List.isEmpty_iff] at hge
      simp only [Except.ok.injEq, Prod.mk.injEq] at h
      exact Or.inr (Or.inl ⟨hdd, hge, h.1.symm, h.2.symm⟩)
    · rw [if_neg hge] at h
      have hne : sF.games ≠ [] := by simpa [List.isEmpty_iff] using hge
      rw [rotate_nonempty _ _ hne] at h
      cases hget : sF.games.get? sF.game_index with
      | none =>
        rw [hget] at h
        simp at h
      | some g =>
        rw [hget] at h
        simp only [Except.ok.injEq, Prod.mk.injEq] at h
        exact Or.inr (Or.inr ⟨g, hdd, rfl, h.1.symm, h.2.symm⟩)
  · rw [if_neg hdd] at h
    simp only [Except.ok.injEq, Prod.mk.injEq] at h
    exact Or.inl ⟨by simpa using hdd, h.1.symm, h.2.symm⟩

/-- Exhaustive description of a successful loop body. -/
lemma run_body_cases (s : LoopState) (now : Nat) (fr : List Game)
    (tr : List Action) (s2 : LoopState)
    (h : run_body s now fr = Except.ok (tr, s2)) :
    (elapsed s.fetch_clock now fetch_interval_ms = true ∧ fr = [] ∧
      tr = [Action.log, Action.gcCollect, Action.showNoGames, Action.sleep_ms 5000] ∧
      s2 = { s with games := fr,
                    fetch_clock := ticks_add s.fetch_clock fetch_interval_ms,
                    game_index := 0 })
    ∨ (elapsed s.fetch_clock now fetch_interval_ms = true ∧ fr ≠ [] ∧
      display_phase [Action.log, Action.gcCollect]
        { s with games := fr,
                 fetch_clock := ticks_add s.fetch_clock fetch_interval_ms,
                 game_index := 0 } now = Except.ok (tr, s2))
    ∨ (elapsed s.fetch_clock now fetch_interval_ms = false ∧
      display_phase [] s now = Except.ok (tr, s2)) := by
  unfold run_body at h
  by_cases hfd : elapsed s.fetch_clock now fetch_interval_ms = true
  · rw [if_pos hfd] at h
    by_cases hem : fr.isEmpty = true
    · rw [if_pos hem] at h
      rw [List.isEmpty_iff] at hem
      simp only [Except.ok.injEq, Prod.mk.injEq] at h
      exact Or.inl ⟨hfd, hem, h.1.symm, h.2.symm⟩
    · rw [if_neg hem] at h
      have hne : fr ≠ [] := by simpa [List.isEmpty_iff] using hem
      exact Or.inr (Or.inl ⟨hfd, hne, h⟩)
  · rw [if_neg hfd] at h
    exact Or.inr (Or.inr ⟨by simpa using hfd, h⟩)

/-! ## Drift-free deadline advance (claim C4) -/

/-- Claim C4: whenever either interval timer fires in a fault-free step, its
deadline advances by exactly one interval of modular tick addition from its
previous deadline value (never from `now`), and firing one timer leaves the
other timer's deadline untouched.  (The display timer does not fire in a
step short-circuited by an empty refresh.) -/
theorem deadline_advance_drift_free (s : LoopState) (inp : StepInput)
    (tr : List Action) (s2 : LoopState)
    (hf : inp.fault = none) (h : step s inp = (tr, some s2)) :
    s2.fetch_clock =
      (if elapsed s.fetch_clock inp.now fetch_interval_ms then
        ticks_add s.fetch_clock fetch_interval_ms else s.fetch_clock)
    ∧ s2.display_clock =
      (if elapsed s.display_clock inp.now display_interval_ms = true
          ∧ ¬(elapsed s.fetch_clock inp.now fetch_interval_ms = true
              ∧ inp.fetch_result = []) then
        ticks_add s.display_clock display_interval_ms else s.display_clock) := by
  rw [step_ok_iff s inp tr s2 hf] at h
  rcases run_body_cases _ _ _ _ _ h with
    ⟨hfd, hem, htr, hs⟩ | ⟨hfd, hne, hdp⟩ | ⟨hfd, hdp⟩
  · subst hs
    simp [hfd, hem]
  · rcases display_phase_cases _ _ _ _ _ hdp with
      ⟨hdd, htr, hs⟩ | ⟨hdd, hge, htr, hs⟩ | ⟨g, hdd, hget, htr, hs⟩ <;>
      subst hs <;> simp_all
  · rcases display_phase_cases _ _ _ _ _ hdp with
      ⟨hdd, htr, hs⟩ | ⟨hdd, hge, htr, hs⟩ | ⟨g, hdd, hget, htr, hs⟩ <;>
      subst hs <;> simp_all

theorem deadline_advance_drift_free_witness :
    (⟨[], 0, 0, 0⟩ : LoopState).fetch_clock = 0 ∧
    ∀ tr s2, step ⟨[], 0, 0, 0⟩ ⟨300000, [sample_game], none⟩ = (tr, some s2) →
      s2.fetch_clock =
        (if elapsed 0 300000 fetch_interval_ms then
          ticks_add 0 fetch_interval_ms else 0) ∧
      s2.display_clock =
        (if elapsed 0 300000 display_interval_ms = true
            ∧ ¬(elapsed 0 300000 fetch_interval_ms = true ∧ [sample_game] = ([] : List Game)) then
          ticks_add 0 display_interval_ms else 0) :=
  ⟨rfl, fun tr s2 h => deadline_advance_drift_free ⟨[], 0, 0, 0⟩ ⟨300000, [sample_game], none⟩ tr s2 rfl h⟩

/-! ## Rotation correctness (claim C5) -/

lemma rotate_iter_eq (games : List Game) (idx : Nat) (h : idx < games.length) :
    ∀ k, rotate_iter games idx k = (idx + k) % games.length := by
  have hL : 0 < games.length := Nat.lt_of_le_of_lt (Nat.zero_le _) h
  have hne : games ≠ [] := List.ne_nil_of_length_pos hL
  intro k
  induction k with
  | zero => simp [rotate_iter, Nat.mod_eq_of_lt h]
  | succ k ih =>
    have hiE : games.isEmpty = false := by simp [List.isEmpty_iff, hne]
    show (rotate games (rotate_iter games idx k)).2 = (idx + (k + 1)) % games.length
    rw [ih]
    simp only [rotate, hiE, Bool.false_eq_true, if_false]
    show ((idx + k) % games.length + 1) % games.length = (idx + (k + 1)) % games.length
    rw [Nat.mod_add_mod]
    congr 1

lemma rotation_perm (L idx : Nat) (h : idx < L) :
    ((List.range L).map (fun k => (idx + k) % L)).Perm (List.range L) := by
  have hL : 0 < L := Nat.lt_of_le_of_lt (Nat.zero_le _) h
  have hnd : ((List.range L).map (fun k => (idx + k) % L)).Nodup := by
    refine List.Nodup.map_on ?_ (List.nodup_range L)
    intro k1 hk1 k2 hk2 heq
    rw [List.mem_range] at hk1 hk2
    have hc := Nat.ModEq.add_left_cancel' idx (heq : (idx + k1) ≡ (idx + k2) [MOD L])
    rwa [Nat.ModEq, Nat.mod_eq_of_lt hk1, Nat.mod_eq_of_lt hk2] at hc
  apply List.perm_of_nodup_nodup_toFinset_eq hnd (List.nodup_range L)
  ext x
  simp only [List.mem_toFinset, List.mem_map, List.mem_range]
  constructor
  · rintro ⟨k, hk, rfl⟩
    exact Nat.mod_lt _ hL
  · intro hx
    refine ⟨(x + L - idx) % L, Nat.mod_lt _ hL, ?_⟩
    have h1 : idx + (x + L - idx) % L ≡ idx + (x + L - idx) [MOD L] :=
      (Nat.mod_modEq _ L).add_left idx
    have h2 : idx + (x + L - idx) = x + L := by omega
    have h3 : (idx + (x + L - idx) % L) % L = (idx + (x + L - idx)) % L := h1
    rw [h2] at h3
    rw [h3, Nat.add_mod_right, Nat.mod_eq_of_lt hx]

/-- Claim C5: on a list of length `L ≥ 1` with an in-range index, a rotation
call returns the element at the current index, then advances the index by
one modulo `L`; `L` consecutive calls visit every index exactly once (the
visited indices are a permutation of `range L`) and return the index to its
starting value, so the cycle repeats; on an empty list nothing is selected
and the index state is unchanged. -/
theorem rotation_correct :
    (∀ (games : List Game) (idx : Nat) (h : idx < games.length),
      rotate games idx = (some (games.get ⟨idx, h⟩), (idx + 1) % games.length))
    ∧ (∀ idx, rotate [] idx = (none, idx))
    ∧ (∀ (games : List Game) (idx : Nat), idx < games.length →
        ((List.range games.length).map (rotate_iter games idx)).Perm
          (List.range games.length)
        ∧ rotate_iter games idx games.length = idx) := by
  refine ⟨?_, ?_, ?_⟩
  · intro games idx h
    have hne : games ≠ [] :=
      List.ne_nil_of_length_pos (Nat.lt_of_le_of_lt (Nat.zero_le _) h)
    simp [rotate, List.isEmpty_iff, hne, List.get?_eq_get h]
  · intro idx
    simp [rotate]
  · intro games idx h
    constructor
    · have hmap : (List.range games.length).map (rotate_iter games idx) =
          (List.range games.length).map (fun k => (idx + k) % games.length) := by
        apply List.map_congr_left
        intro k _
        exact rotate_iter_eq games idx h k
      rw [hmap]
      exact rotation_perm _ _ h
    · rw [rotate_iter_eq games idx h, Nat.add_mod_right, Nat.mod_eq_of_lt h]

theorem rotation_correct_witness :
    rotate [sample_game, sample_game2] 1 =
      (some ([sample_game, sample_game2].get ⟨1, by decide⟩),
        (1 + 1) % [sample_game, sample_game2].length)
    ∧ rotate [] 7 = (none, 7)
    ∧ (((List.range [sample_game, sample_game2].length).map
          (rotate_iter [sample_game, sample_game2] 1)).Perm
        (List.range [sample_game, sample_game2].length)
      ∧ rotate_iter [sample_game, sample_game2] 1
          [sample_game, sample_game2].length = 1) :=
  ⟨rotation_correct.1 [sample_game, sample_game2] 1 (by decide),
   rotation_correct.2.1 7,
   rotation_correct.2.2 [sample_game, sample_game2] 1 (by decide)⟩

/-! ## Refresh behaviour (claims C1 and C8) -/

lemma display_phase_total (trF : List Action) (sF : LoopState) (now : Nat)
    (hidx : sF.game_index < sF.games.length ∨ sF.games = []) :
    ∃ tr s2, display_phase trF sF now = Except.ok (tr, s2) ∧ s2.games = sF.games := by
  unfold display_phase
  by_cases hdd : elapsed sF.display_clock now display_interval_ms = true
  · rw [if_pos hdd]
    rcases hidx with hlt | hnil
    · have hne : sF.games ≠ [] := by
        intro hh
        rw [hh] at hlt
        simp at hlt
      rw [if_neg (by simp [List.isEmpty_iff, hne]), rotate_nonempty _ _ hne]
      rcases hget : sF.games.get? sF.game_index with _ | g
      · rw [List.get?_eq_none] at hget
        omega
      · exact ⟨_, _, rfl, rfl⟩
    · rw [if_pos (by simp [hnil])]
      exact ⟨_, _, rfl, rfl⟩
  · rw [if_neg hdd]
    exact ⟨_, _, rfl, rfl⟩

/-- A fault-free step whose refresh is due always completes and installs
the fetch result as the new game list. -/
lemma step_refresh_total (s : LoopState) (inp : StepInput)
    (hf : inp.fault = none)
    (hdue : elapsed s.fetch_clock inp.now fetch_interval_ms = true) :
    ∃ tr s2, step s inp = (tr, some s2) ∧ s2.games = inp.fetch_result := by
  have hrb : ∀ tr s2, run_body s inp.now inp.fetch_result = Except.ok (tr, s2) →
      step s inp = (tr, some s2) :=
    fun tr s2 hh => (step_ok_iff s inp tr s2 hf).2 hh
  by_cases hem : inp.fetch_result.isEmpty = true
  · exact ⟨_, _, hrb _ _ (by unfold run_body; rw [if_pos hdue, if_pos hem]), rfl⟩
  · have hne : inp.fetch_result ≠ [] := by simpa [List.isEmpty_iff] using hem
    obtain ⟨tr, s2, hdp, hg⟩ := display_phase_total [Action.log, Action.gcCollect]
      { s with games := inp.fetch_result,
               fetch_clock := ticks_add s.fetch_clock fetch_interval_ms,
               game_index := 0 } inp.now
      (Or.inl (by simpa using List.length_pos.2 hne))
    refine ⟨tr, s2, hrb _ _ ?_, by simpa using hg⟩
    unfold run_body
    rw [if_pos hdue, if_neg hem]
    exact hdp

/-- Claim C1 fails on the code: with two games installed and the rotation
index at 1, a due refresh whose run fails entirely (produces no games)
replaces the installed `GameList` with the empty list and resets the
rotation index to 0 — the prior list is not kept and the index is not left
where it was. -/
theorem refresh_not_atomic_on_failure_cx :
    step ⟨[sample_game, sample_game2], 0, 0, 1⟩ ⟨300000, [], none⟩ =
      ([Action.log, Action.gcCollect, Action.showNoGames, Action.sleep_ms 5000],
        some ⟨[], 300000, 0, 0⟩)
    ∧ ([sample_game, sample_game2] : List Game) ≠ []
    ∧ (1 : Nat) ≠ 0 := by
  refine ⟨?_, by simp, by simp⟩
  rfl

/-- Claim C1 (amended): a due refresh that completes always installs the
fetched list — replacing the prior `GameList` even when the run produced no
games — and unconditionally resets the rotation index to 0 at the refresh
point (a display rotation later in the same step may then advance it to
`1 % L`); an empty result additionally shows the no-games screen. -/
theorem refresh_installs_and_resets (s : LoopState) (inp : StepInput)
    (tr : List Action) (s2 : LoopState)
    (hf : inp.fault = none)
    (hdue : elapsed s.fetch_clock inp.now fetch_interval_ms = true)
    (h : step s inp = (tr, some s2)) :
    s2.games = inp.fetch_result
    ∧ s2.fetch_clock = ticks_add s.fetch_clock fetch_interval_ms
    ∧ s2.game_index =
        (if inp.fetch_result ≠ []
            ∧ elapsed s.display_clock inp.now display_interval_ms = true then
          1 % inp.fetch_result.length else 0)
    ∧ (inp.fetch_result = [] → Action.showNoGames ∈ tr) := by
  rw [step_ok_iff s inp tr s2 hf] at h
  rcases run_body_cases _ _ _ _ _ h with
    ⟨hfd, hem, htr, hs⟩ | ⟨hfd, hne, hdp⟩ | ⟨hfd, hdp⟩
  · subst hs
    subst htr
    simp [hem]
  · rcases display_phase_cases _ _ _ _ _ hdp with
      ⟨hdd, htr, hs⟩ | ⟨hdd, hge, htr, hs⟩ | ⟨g, hdd, hget, htr, hs⟩ <;>
      subst hs <;> simp_all
  · rw [hfd] at hdue
    exact absurd hdue (by simp)

theorem refresh_installs_and_resets_witness :
    (⟨[], 300000, 0, 0⟩ : LoopState).games = ([] : List Game)
    ∧ (⟨[], 300000, 0, 0⟩ : LoopState).fetch_clock = ticks_add 0 fetch_interval_ms
    ∧ (⟨[], 300000, 0, 0⟩ : LoopState).game_index =
        (if ([] : List Game) ≠ []
            ∧ elapsed 0 300000 display_interval_ms = true then
          1 % ([] : List Game).length else 0)
    ∧ (([] : List Game) = [] →
        Action.showNoGames ∈
          [Action.log, Action.gcCollect, Action.showNoGames, Action.sleep_ms 5000]) :=
  refresh_installs_and_resets ⟨[sample_game, sample_game2], 0, 0, 1⟩ ⟨300000, [], none⟩
    [Action.log, Action.gcCollect, Action.showNoGames, Action.sleep_ms 5000]
    ⟨[], 300000, 0, 0⟩ rfl (by decide) (by rfl)

/-- Claim C8: a fault-free step whose due refresh completes with zero total
games enters the no-games display state, sleeps for its configured delay,
does not invoke the process-restart primitive, and advances the fetch
deadline by exactly one interval — so that another refresh is attempted: any
later fault-free step at which that deadline has elapsed completes and
installs a fresh fetch result. -/
theorem empty_refresh_recovers (s : LoopState) (inp : StepInput)
    (tr : List Action) (s2 : LoopState)
    (hf : inp.fault = none)
    (hdue : elapsed s.fetch_clock inp.now fetch_interval_ms = true)
    (hempty : inp.fetch_result = [])
    (h : step s inp = (tr, some s2)) :
    Action.showNoGames ∈ tr
    ∧ Action.sleep_ms 5000 ∈ tr
    ∧ Action.restart ∉ tr
    ∧ s2.games = []
    ∧ s2.fetch_clock = ticks_add s.fetch_clock fetch_interval_ms
    ∧ (∀ inp2 : StepInput, inp2.fault = none →
        elapsed s2.fetch_clock inp2.now fetch_interval_ms = true →
        ∃ tr2 s3, step s2 inp2 = (tr2, some s3) ∧ s3.games = inp2.fetch_result) := by
  rw [step_ok_iff s inp tr s2 hf] at h
  rcases run_body_cases _ _ _ _ _ h with
    ⟨hfd, hem, htr, hs⟩ | ⟨hfd, hne, hdp⟩ | ⟨hfd, hdp⟩
  · subst hs
    subst htr
    refine ⟨by simp, by simp, by simp, by simp [hempty], by simp, ?_⟩
    intro inp2 hf2 hdue2
    exact step_refresh_total _ inp2 hf2 hdue2
  · exact absurd hempty hne
  · rw [hfd] at hdue
    exact absurd hdue (by simp)

theorem empty_refresh_recovers_witness :
    Action.showNoGames ∈
      [Action.log, Action.gcCollect, Action.showNoGames, Action.sleep_ms 5000]
    ∧ Action.sleep_ms 5000 ∈
      [Action.log, Action.gcCollect, Action.showNoGames, Action.sleep_ms 5000]
    ∧ Action.restart ∉
      [Action.log, Action.gcCollect, Action.showNoGames, Action.sleep_ms 5000]
    ∧ (⟨[], 300000, 7, 0⟩ : LoopState).games = []
    ∧ (⟨[], 300000, 7, 0⟩ : LoopState).fetch_clock = ticks_add 0 fetch_interval_ms
    ∧ (∀ inp2 : StepInput, inp2.fault = none →
        elapsed (⟨[], 300000, 7, 0⟩ : LoopState).fetch_clock inp2.now fetch_interval_ms = true →
        ∃ tr2 s3, step (⟨[], 300000, 7, 0⟩ : LoopState) inp2 = (tr2, some s3) ∧
          s3.games = inp2.fetch_result) :=
  empty_refresh_recovers ⟨[sample_game], 0, 7, 3⟩ ⟨300000, [], none⟩
    [Action.log, Action.gcCollect, Action.showNoGames, Action.sleep_ms 5000]
    ⟨[], 300000, 7, 0⟩ rfl (by decide) rfl (by rfl)

/-! ## Recovery sequences (claim C9) -/

/-- Claim C9: a fault escaping a scheduler step runs exactly the matching
handler — a resource-exhaustion fault reclaims memory, waits a short fixed
delay, then invokes the process-restart primitive; any other fault logs,
waits a longer fixed delay, reclaims memory, waits a further short delay,
then restarts.  Each handler invokes restart exactly once, as its final
action (no further processing in that run), and a step that completes
without a fault never invokes restart. -/
theorem recovery_sequences :
    (∀ (s : LoopState) (inp : StepInput) (f : Fault), inp.fault = some f →
      step s inp = (handle_fault f, none))
    ∧ handle_fault Fault.memoryError =
        [Action.log, Action.gcCollect, Action.sleep_ms 5000, Action.restart]
    ∧ handle_fault Fault.generic =
        [Action.log, Action.sleep_ms 10000, Action.gcCollect, Action.sleep_ms 5000,
          Action.restart]
    ∧ (∀ f, (handle_fault f).count Action.restart = 1
        ∧ (handle_fault f).getLast? = some Action.restart)
    ∧ (∀ (s : LoopState) (inp : StepInput) (tr : List Action) (s2 : LoopState),
        step s inp = (tr, some s2) → Action.restart ∉ tr) := by
  refine ⟨?_, rfl, rfl, ?_, ?_⟩
  · intro s inp f hf
    simp [step, hf]
  · intro f
    cases f <;> exact ⟨by decide, by decide⟩
  · intro s inp tr s2 h
    cases hf : inp.fault with
    | some f =>
      simp [step, hf] at h
    | none =>
      rw [step_ok_iff s inp tr s2 hf] at h
      rcases run_body_cases _ _ _ _ _ h with
        ⟨hfd, hem, htr, hs⟩ | ⟨hfd, hne, hdp⟩ | ⟨hfd, hdp⟩
      · subst htr
        simp
      · rcases display_phase_cases _ _ _ _ _ hdp with
          ⟨hdd, htr, hs⟩ | ⟨hdd, hge, htr, hs⟩ | ⟨g, hdd, hget, htr, hs⟩ <;>
          subst htr <;> simp
      · rcases display_phase_cases _ _ _ _ _ hdp with
          ⟨hdd, htr, hs⟩ | ⟨hdd, hge, htr, hs⟩ | ⟨g, hdd, hget, htr, hs⟩ <;>
          subst htr <;> simp

theorem recovery_sequences_witness :
    step ⟨[sample_game], 0, 0, 0⟩ ⟨0, [], some Fault.memoryError⟩ =
      (handle_fault Fault.memoryError, none)
    ∧ ((handle_fault Fault.generic).count Action.restart = 1
        ∧ (handle_fault Fault.generic).getLast? = some Action.restart)
    ∧ Action.restart ∉ [Action.sleep_ms 100] :=
  ⟨recovery_sequences.1 ⟨[sample_game], 0, 0, 0⟩ ⟨0, [], some Fault.memoryError⟩
      Fault.memoryError rfl,
   recovery_sequences.2.2.2.1 Fault.generic,
   recovery_sequences.2.2.2.2 ⟨[sample_game], 0, 0, 0⟩ ⟨0, [], none⟩
      [Action.sleep_ms 100] ⟨[sample_game], 0, 0, 0⟩ (by rfl)⟩

/-! ## Two-tier failure isolation of the fetch pipeline (claim C2) -/

lemma fetch_all_games_from_eq (i : Nat) (resps : List LeagueResp) :
    fetch_all_games_from i resps =
      ((resps.enumFrom i).map (fun p => fetch_league p.1 p.2)).flatten := by
  induction resps generalizing i with
  | nil => rfl
  | cons r rs ih =>
    show fetch_league i r ++ fetch_all_games_from (i + 1) rs = _
    rw [ih]
    rfl

lemma fetch_from_err_is_empty_league (i : Nat) (pre post : List LeagueResp) :
    fetch_all_games_from i (pre ++ LeagueResp.fetchErr :: post) =
      fetch_all_games_from i (pre ++ LeagueResp.ok [] :: post) := by
  induction pre generalizing i with
  | nil => rfl
  | cons r rs ih =>
    show fetch_league i r ++
        fetch_all_games_from (i + 1) (rs ++ LeagueResp.fetchErr :: post) =
      fetch_league i r ++
        fetch_all_games_from (i + 1) (rs ++ LeagueResp.ok [] :: post)
    rw [ih]

lemma length_filterMap_of_isSome (f : RawEvent → Option Game) (l : List RawEvent)
    (h : ∀ e ∈ l, (f e).isSome) : (l.filterMap f).length = l.length := by
  induction l with
  | nil => rfl
  | cons a l ih =>
    rcases Option.isSome_iff_exists.1 (h a (by simp)) with ⟨g, hg⟩
    simp [List.filterMap_cons, hg, ih (fun e he => h e (by simp [he]))]

/-- Claim C2: the pipeline always returns (it is a total function of the
per-league outcomes) the concatenation, in league order, of the
successfully normalized events of each successfully fetched league; a
league whose fetch or parse fails contributes exactly the same as a league
with zero events — nothing — without affecting the other leagues; and one
malformed event among N valid events of one league yields exactly N games
for that league. -/
theorem fetch_pipeline_isolation :
    (∀ resps : List LeagueResp,
      fetch_all_games resps = ((resps.enum.map (fun p => fetch_league p.1 p.2)).flatten))
    ∧ (∀ pre post : List LeagueResp,
      fetch_all_games (pre ++ LeagueResp.fetchErr :: post) =
        fetch_all_games (pre ++ LeagueResp.ok [] :: post))
    ∧ (∀ (i : Nat) (l1 l2 : List RawEvent) (bad : RawEvent),
        parse_game bad i = none →
        (∀ e ∈ l1 ++ l2, (parse_game e i).isSome) →
        (fetch_league i (LeagueResp.ok (l1 ++ bad :: l2))).length =
          (l1 ++ l2).length) := by
  refine ⟨?_, ?_, ?_⟩
  · intro resps
    exact fetch_all_games_from_eq 0 resps
  · intro pre post
    exact fetch_from_err_is_empty_league 0 pre post
  · intro i l1 l2 bad hbad hvalid
    show ((l1 ++ bad :: l2).filterMap (fun e => parse_game e i)).length = _
    rw [List.filterMap_append, List.filterMap_cons, hbad]
    rw [List.length_append,
      length_filterMap_of_isSome _ l1 (fun e he => hvalid e (by simp [he])),
      length_filterMap_of_isSome _ l2 (fun e he => hvalid e (by simp [he])),
      List.length_append]

theorem fetch_pipeline_isolation_witness :
    parse_game bad_event 0 = none
    ∧ (∀ e ∈ [sample_event] ++ [sample_event], (parse_game e 0).isSome)
    ∧ (fetch_league 0 (LeagueResp.ok ([sample_event] ++ bad_event :: [sample_event]))).length =
        ([sample_event] ++ [sample_event]).length :=
  ⟨rfl, by decide,
   fetch_pipeline_isolation.2.2 0 [sample_event] [sample_event] bad_event rfl (by decide)⟩

/-! ## Status derivation (claim C7) -/

/-- Claim C7: for every event the normalizer accepts, the displayed status
string is `"FINAL"` when the upstream status code is `STATUS_FINAL`
regardless of detail text; the upstream short detail passed through
verbatim when the code is `STATUS_IN_PROGRESS`; the locally converted date
string when `STATUS_SCHEDULED`; the fixed literals for `STATUS_POSTPONED`
and `STATUS_CANCELED`; and, for any other code, the upstream detail string
when non-empty, else `"SCHEDULED"`.  (A missing status code defaults
upstream to `STATUS_SCHEDULED`, a missing detail to the empty string.) -/
theorem status_derivation (e : RawEvent) (i : Nat) (g : Game)
    (st : RawStatus) (ty : RawStatusType)
    (hst : e.status = some st) (hty : st.type = some ty)
    (h : parse_game e i = some g) :
    g.status =
      (if ty.name.getD "STATUS_SCHEDULED" = "STATUS_FINAL" then "FINAL"
       else if ty.name.getD "STATUS_SCHEDULED" = "STATUS_IN_PROGRESS" then
         ty.shortDetail.getD ""
       else if ty.name.getD "STATUS_SCHEDULED" = "STATUS_SCHEDULED" then
         convert_date_format (e.date.getD "") timezone_info
       else if ty.name.getD "STATUS_SCHEDULED" = "STATUS_POSTPONED" then "POSTPONED"
       else if ty.name.getD "STATUS_SCHEDULED" = "STATUS_CANCELED" then "CANCELED"
       else if ty.shortDetail.getD "" ≠ "" then ty.shortDetail.getD ""
       else "SCHEDULED") := by
  obtain ⟨ocomps, ostatus, odate⟩ := e
  obtain ⟨otype⟩ := st
  simp only at hst
  subst hst
  simp only at hty
  subst hty
  rcases ocomps with _ | comps
  · simp [parse_game] at h
  rcases comps with _ | ⟨⟨ocompetitors⟩, rest⟩
  · simp [parse_game] at h
  rcases ocompetitors with _ | cs
  · simp [parse_game] at h
  rcases cs with _ | ⟨⟨ot0, osc0⟩, _ | ⟨⟨ot1, osc1⟩, _ | ⟨c2, t⟩⟩⟩
  · simp [parse_game] at h
  · simp [parse_game] at h
  · rcases ot0 with _ | ⟨oab0⟩
    · simp [parse_game] at h
    rcases oab0 with _ | ab0
    · simp [parse_game] at h
    rcases ot1 with _ | ⟨oab1⟩
    · simp [parse_game] at h
    rcases oab1 with _ | ab1
    · simp [parse_game] at h
    cases hlg : sport_leagues[i]? with
    | none => simp [parse_game, hlg] at h
    | some lg =>
      simp only [parse_game, hlg, List.getElem?_cons_zero, Option.some.injEq] at h
      subst h
      simp [beq_iff_eq]
  · simp [parse_game] at h

theorem status_derivation_witness :
    sample_game.status = "FINAL" := by
  have h := status_derivation sample_event 0 sample_game
    { type := some { name := some "STATUS_FINAL", shortDetail := some "Final" } }
    { name := some "STATUS_FINAL", shortDetail := some "Final" }
    rfl rfl (by rfl)
  simpa using h

/-! ## Missing scores default to the string "0" (claim C10) -/

/-- Claim C10: the stored scores of an accepted event are strings (the
`Game` fields are `String`-typed, matching `str(...)` in the source), and a
competitor record that lacks a `score` key yields the string `"0"` for that
side: removing the score keys never changes whether an event is accepted,
and an accepted event with a missing score stores `"0"` rather than the
upstream absence. -/
theorem missing_score_defaults (e : RawEvent) (i : Nat) :
    ((parse_game (erase_scores e) i).isSome = (parse_game e i).isSome)
    ∧ (∀ g, parse_game (erase_scores e) i = some g →
        g.home_score = "0" ∧ g.away_score = "0")
    ∧ (∀ g cs c0 c1, parse_game e i = some g →
        event_competitors e = some cs → cs.get? 0 = some c0 → cs.get? 1 = some c1 →
        (c0.score = none → g.home_score = "0") ∧
        (c1.score = none → g.away_score = "0")) := by
  obtain ⟨ocomps, ostatus, odate⟩ := e
  rcases ocomps with _ | comps
  · simp [parse_game, erase_scores, event_competitors]
  rcases comps with _ | ⟨⟨ocompetitors⟩, rest⟩
  · simp [parse_game, erase_scores, event_competitors]
  rcases ocompetitors with _ | cs
  · simp [parse_game, erase_scores, event_competitors]
  rcases cs with _ | ⟨⟨ot0, osc0⟩, _ | ⟨⟨ot1, osc1⟩, _ | ⟨c2, t⟩⟩⟩
  · simp [parse_game, erase_scores, event_competitors]
  · simp [parse_game, erase_scores, event_competitors]
  · rcases ot0 with _ | ⟨oab0⟩
    · simp [parse_game, erase_scores, event_competitors]
    rcases oab0 with _ | ab0
    · simp [parse_game, erase_scores, event_competitors]
    rcases ot1 with _ | ⟨oab1⟩
    · simp [parse_game, erase_scores, event_competitors]
    rcases oab1 with _ | ab1
    · simp [parse_game, erase_scores, event_competitors]
    rcases ostatus with _ | ⟨oty⟩
    · simp [parse_game, erase_scores, event_competitors]
    rcases oty with _ | ⟨onm, odet⟩
    · simp [parse_game, erase_scores, event_competitors]
    cases hlg : sport_leagues[i]? with
    | none => simp [parse_game, erase_scores, event_competitors, hlg]
    | some lg =>
      refine ⟨by simp [parse_game, erase_scores, hlg],
              by simp [parse_game, erase_scores, hlg], ?_⟩
      intro g cs c0 c1 hg hcs h0 h1
      simp only [parse_game, hlg, List.getElem?_cons_zero, Option.some.injEq] at hg
      subst hg
      simp [event_competitors] at hcs
      subst hcs
      simp at h0 h1
      subst h0
      subst h1
      constructor
      · intro hsc
        simp only at hsc
        simp [hsc]
      · intro hsc
        simp only at hsc
        simp [hsc]
  · simp [parse_game, erase_scores, event_competitors]

theorem missing_score_defaults_witness :
    ((parse_game (erase_scores sample_event) 0).isSome =
      (parse_game sample_event 0).isSome)
    ∧ (∀ g, parse_game (erase_scores sample_event) 0 = some g →
        g.home_score = "0" ∧ g.away_score = "0")
    ∧ (∀ g cs c0 c1, parse_game sample_event 0 = some g →
        event_competitors sample_event = some cs →
        cs.get? 0 = some c0 → cs.get? 1 = some c1 →
        (c0.score = none → g.home_score = "0") ∧
        (c1.score = none → g.away_score = "0")) :=
  missing_score_defaults sample_event 0

/-! ## Date conversion (claim C6) -/

lemma digit_char_facts (n : Nat) :
    is_space_char (digit_char n) = false ∧ is_digit_char (digit_char n) = true ∧
    digit_char n ≠ '-' ∧ digit_char n ≠ '+' ∧ digit_val (digit_char n) = n % 10 := by
  have h : n % 10 < 10 := Nat.mod_lt _ (by norm_num)
  have key : ∀ m : Fin 10, is_space_char (Char.ofNat (48 + m.val)) = false ∧
      is_digit_char (Char.ofNat (48 + m.val)) = true ∧
      Char.ofNat (48 + m.val) ≠ '-' ∧ Char.ofNat (48 + m.val) ≠ '+' ∧
      digit_val (Char.ofNat (48 + m.val)) = m.val := by decide
  exact key ⟨n % 10, h⟩

lemma pyInt_pad2 (n : Nat) (h : n ≤ 99) : pyInt (pad2_chars n) = some (n : Int) := by
  obtain ⟨hs0, hd0, hm0, hp0, hv0⟩ := digit_char_facts (n / 10)
  obtain ⟨hs1, hd1, hm1, hp1, hv1⟩ := digit_char_facts n
  have hstrip : py_strip (pad2_chars n) = pad2_chars n := by
    unfold py_strip pad2_chars
    simp [List.dropWhile_cons, hs0, hs1]
  unfold pyInt
  rw [hstrip]
  unfold pad2_chars py_digits_val
  simp [hm0, hp0, hd0, hd1, hv0, hv1]
  omega

lemma pyInt_pad4 (n : Nat) (h : n ≤ 9999) : pyInt (pad4_chars n) = some (n : Int) := by
  obtain ⟨hs0, hd0, hm0, hp0, hv0⟩ := digit_char_facts (n / 1000)
  obtain ⟨hs1, hd1, hm1, hp1, hv1⟩ := digit_char_facts (n / 100)
  obtain ⟨hs2, hd2, hm2, hp2, hv2⟩ := digit_char_facts (n / 10)
  obtain ⟨hs3, hd3, hm3, hp3, hv3⟩ := digit_char_facts n
  have hstrip : py_strip (pad4_chars n) = pad4_chars n := by
    unfold py_strip pad4_chars
    simp [List.dropWhile_cons, hs0, hs3]
  unfold pyInt
  rw [hstrip]
  unfold pad4_chars py_digits_val
  simp [hm0, hp0, hd0, hd1, hd2, hd3, hv0, hv1, hv2, hv3]
  omega

lemma parse_render (y mo d h mi : Nat)
    (hy : y ≤ 9999) (hmo : mo ≤ 99) (hd : d ≤ 99) (hh : h ≤ 99) (hmi : mi ≤ 99) :
    parse_ts_fields (render_timestamp y mo d h mi).data =
      some ((y : Int), (mo : Int), (d : Int), (h : Int), (mi : Int)) := by
  have e1 : py_slice (render_timestamp y mo d h mi).data 0 4 = pad4_chars y := rfl
  have e2 : py_slice (render_timestamp y mo d h mi).data 5 7 = pad2_chars mo := rfl
  have e3 : py_slice (render_timestamp y mo d h mi).data 8 10 = pad2_chars d := rfl
  have e4 : py_slice (render_timestamp y mo d h mi).data 11 13 = pad2_chars h := rfl
  have e5 : py_slice (render_timestamp y mo d h mi).data 14 16 = pad2_chars mi := rfl
  unfold parse_ts_fields
  rw [e1, e2, e3, e4, e5, pyInt_pad4 y hy, pyInt_pad2 mo hmo, pyInt_pad2 d hd,
    pyInt_pad2 h hh, pyInt_pad2 mi hmi]

lemma days_in_month_le (y mo : Nat) : days_in_month y mo ≤ 31 := by
  unfold days_in_month
  split
  · omega
  · rcases mo with _ | _ | _ | _ | _ | _ | _ | _ | _ | _ | _ | _ | _ | mo2
    all_goals try decide
    rw [List.getD_eq_default _ _ (by simp [DAYS_IN_MONTH])]
    omega

lemma format_time_eq_spec (m d h mi : Nat) (hh : h < 24) :
    format_time m d h mi = render_clock_spec m d h mi := by
  unfold format_time render_clock_spec pad2_str
  have hx : (if (if h ≤ 12 then h else h - 12) = 0 then 12
      else if h ≤ 12 then h else h - 12) = (if h % 12 = 0 then 12 else h % 12) := by
    split_ifs <;> omega
  rw [hx]
  have hmin : (if mi < 10 then "0" ++ toString mi else toString mi) =
      (if mi < 10 then "0" else "") ++ toString mi := by
    split_ifs <;> simp
  rw [hmin]
  simp [String.append_assoc]

lemma dt_add_hours_hour_lt (y mo d h mi : Nat) (tz : Int)
    (y2 m2 d2 h2 mi2 : Nat)
    (hadd : dt_add_hours y mo d h mi tz = some (y2, m2, d2, h2, mi2)) :
    h2 < 24 := by
  simp only [dt_add_hours] at hadd
  split at hadd
  · exact absurd hadd (by simp)
  · simp only [Option.some.injEq, Prod.mk.injEq] at hadd
    obtain ⟨-, -, -, hh2, -⟩ := hadd
    have hlt : ((ymd2ord y mo d : Int) * 1440 + (h : Int) * 60 + (mi : Int) + tz * 60)
        % 1440 < 1440 :=
      Int.emod_lt_of_pos _ (by norm_num)
    have hge : 0 ≤ ((ymd2ord y mo d : Int) * 1440 + (h : Int) * 60 + (mi : Int) + tz * 60)
        % 1440 :=
      Int.emod_nonneg _ (by norm_num)
    omega

/-- Claim C6 fails on the code at a boundary input: the timestamp
`"0001-01-01T00:30"` is well formed, but with the configured offset `-5`
the shifted datetime falls before year 1, the datetime library raises
`OverflowError`, and the function returns `"TBD"` instead of the
offset-adjusted clock string (which would read `"12/31 7:30PM"`). -/
theorem convert_date_format_overflow_cx :
    well_formed_ts "0001-01-01T00:30" = true
    ∧ convert_date_format "0001-01-01T00:30" timezone_info = "TBD"
    ∧ render_clock_spec 12 31 19 30 = "12/31 7:30PM"
    ∧ convert_date_format "0001-01-01T00:30" timezone_info ≠
        render_clock_spec 12 31 19 30 := by
  refine ⟨by decide, by decide, by decide, by decide⟩

/-- Claim C6 (amended): for every well-formed timestamp `YYYY-MM-DDTHH:MM`
(fields in range for the calendar) and fixed hour offset, the function
returns the offset-adjusted 12-hour clock string `M/D H:MMAM|PM` — minute
zero-padded, hour taken modulo 12 with 0 displayed as 12 — provided the
adjusted datetime still lies in the supported year range 1..9999, and
`"TBD"` when the adjustment overflows that range; every input whose field
extraction or validation fails yields `"TBD"` without raising; in
particular `"2024-01-15T00:30"` at offset `-5` gives `"1/14 7:30PM"` and
`"2024-06-01T17:00"` gives `"6/1 12:00PM"`. -/
theorem convert_date_format_correct :
    (∀ (y mo d h mi : Nat) (tz : Int) (tzname : String),
      1 ≤ y → y ≤ 9999 → 1 ≤ mo → mo ≤ 12 → 1 ≤ d → d ≤ days_in_month y mo →
      h < 24 → mi < 60 →
      (∀ y2 m2 d2 h2 mi2, dt_add_hours y mo d h mi tz = some (y2, m2, d2, h2, mi2) →
        convert_date_format (render_timestamp y mo d h mi) (tz, tzname) =
          render_clock_spec m2 d2 h2 mi2)
      ∧ (dt_add_hours y mo d h mi tz = none →
        convert_date_format (render_timestamp y mo d h mi) (tz, tzname) = "TBD"))
    ∧ (∀ (s : String) (tzi : Int × String),
        well_formed_ts s = false → convert_date_format s tzi = "TBD")
    ∧ convert_date_format "2024-01-15T00:30" timezone_info = "1/14 7:30PM"
    ∧ convert_date_format "2024-06-01T17:00" timezone_info = "6/1 12:00PM"
    ∧ convert_date_format "not a date" timezone_info = "TBD" := by
  refine ⟨?_, ?_, by decide, by decide, by decide⟩
  · intro y mo d h mi tz tzname h1 h2 h3 h4 h5 h6 h7 h8
    have hok : datetime_fields_ok (y : Int) (mo : Int) (d : Int) (h : Int) (mi : Int) = true := by
      unfold datetime_fields_ok
      simp only [Bool.and_eq_true, decide_eq_true_eq, Int.toNat_natCast]
      omega
    have hdm := days_in_month_le y mo
    constructor
    · intro y2 m2 d2 h2x mi2 hadd
      unfold convert_date_format
      rw [parse_render y mo d h mi (by omega) (by omega) (by omega) (by omega) (by omega)]
      simp [hok, Int.toNat_natCast]
      rw [hadd]
      exact format_time_eq_spec m2 d2 h2x mi2
        (dt_add_hours_hour_lt y mo d h mi tz y2 m2 d2 h2x mi2 hadd)
    · intro hnone
      unfold convert_date_format
      rw [parse_render y mo d h mi (by omega) (by omega) (by omega) (by omega) (by omega)]
      simp [hok, Int.toNat_natCast]
      rw [hnone]
  · intro s tzi hwf
    unfold convert_date_format
    unfold well_formed_ts at hwf
    cases hp : parse_ts_fields s.data with
    | none => rfl
    | some fields =>
      obtain ⟨y, mo, d, h, mi⟩ := fields
      rw [hp] at hwf
      have hwf2 : datetime_fields_ok y mo d h mi = false := hwf
      simp [hwf2]

theorem convert_date_format_correct_witness :
    convert_date_format (render_timestamp 2024 1 15 0 30) (-5, "EST") =
      render_clock_spec 1 14 19 30
    ∧ convert_date_format "xyz" timezone_info = "TBD" :=
  ⟨(convert_date_format_correct.1 2024 1 15 0 30 (-5) "EST" (by decide) (by decide)
      (by decide) (by decide) (by decide) (by decide) (by decide) (by decide)).1
      2024 1 14 19 30 (by decide),
   convert_date_format_correct.2.1 "xyz" timezone_info (by decide)⟩

end Espy
